import Mathlib

/-!
Shallow embedding of the data-consistency core of the wxWidgets GIOS
air-quality browser in `src/test4/main.cpp`.

The persisted JSON artifacts are modelled structurally:

* a measurement point `{date, value}` becomes `MPoint`, where an `Option`
  field set to `none` models a JSON field that is absent (or `null`);
* a sensor descriptor `{id, param: {paramName}, values}` becomes `Sensor`,
  again with `Option` fields for possibly-absent `param` and `values`;
* a per-station file `<stationId>.json` is a JSON array of descriptors,
  modelled as `List Sensor`;
* C++ `double` values are modelled as exact rationals `ℚ` (the arithmetic
  the code performs, without rounding).

Each definition mirrors one concrete function of the source file; the doc
comment of each definition names that function.
-/

/-- One measurement point of a sensor series: JSON object `{date, value}`.
`value = none` models an absent or `null` `value` field; `date = none`
models an absent `date` field. -/
structure MPoint where
  date : Option String
  value : Option ℚ
  deriving DecidableEq, Repr

/-- One sensor descriptor of a station file: JSON object
`{id, param: {paramName}, values}`.  `param = none` models a missing
`param` object (so a `param.paramName` lookup finds nothing);
`values = none` models a missing `values` field. -/
structure Sensor where
  id : Int
  param : Option String
  values : Option (List MPoint)
  deriving DecidableEq, Repr

/-- The update loop of `fetchAndSaveSensorData` (src/test4/main.cpp:380-386):
walk the station array and, at the FIRST descriptor whose `id` equals
`sensorID`, replace its `values` field with the fetched series and stop
(`break`).  Returns `none` when no descriptor matched (`updated == false`). -/
def updateFirstSensor (sensorID : Int) (newValues : List MPoint) :
    List Sensor → Option (List Sensor)
  | [] => none
  | s :: rest =>
    if s.id = sensorID then
      some ({ s with values := some newValues } :: rest)
    else
      (updateFirstSensor sensorID newValues rest).map (s :: ·)

/-- The merge step of `fetchAndSaveSensorData` (src/test4/main.cpp:366-399):
load the station file (empty array when the file is absent), replace the
`values` of the first descriptor with the given `id`, or — when none
matched — append a fresh descriptor carrying only the fields `id` and
`values` (no `param` object), then write the whole array back. -/
def mergeSensorValues (sensorID : Int) (newValues : List MPoint)
    (stationData : List Sensor) : List Sensor :=
  match updateFirstSensor sensorID newValues stationData with
  | some updated => updated
  | none => stationData ++ [{ id := sensorID, param := none, values := some newValues }]

/-- Refresh entry point `updateData` (src/test4/main.cpp:449-451) delegates to
`fetchAndSaveData`, which parses the HTTP response and, on success,
truncates `<stationId>.json` and writes the parsed payload
(src/test4/main.cpp:264-271).  The old file contents are never read: a
successfully parsed payload replaces the file wholesale, and a parse
failure leaves the file as it was. -/
def updateData (response : Option (List Sensor)) (oldFile : List Sensor) :
    List Sensor :=
  match response with
  | some payload => payload
  | none => oldFile

/-- One operation on a station's sensor file: a value merge
(`fetchAndSaveSensorData`) with a fetched series, or a descriptor-list
refresh (`updateData`) with a successfully parsed fetched payload. -/
inductive StoreOp where
  | merge (sensorID : Int) (newValues : List MPoint)
  | refresh (payload : List Sensor)
  deriving DecidableEq, Repr

/-- Apply one store operation to the station file. -/
def applyOp (file : List Sensor) : StoreOp → List Sensor
  | .merge sensorID newValues => mergeSensorValues sensorID newValues file
  | .refresh payload => updateData (some payload) file

/-- Apply a sequence of store operations, left to right. -/
def applyOps (file : List Sensor) (ops : List StoreOp) : List Sensor :=
  ops.foldl applyOp file

/-- The parameter-name listing of `MyFrame::ShowCityDetails`
(src/test4/main.cpp:715-719): it reads `sensor["param"]["paramName"]` of
every descriptor unconditionally; a descriptor whose `param` object is
missing makes the lookup fail (modelled by `none`). -/
def showParamNames : List Sensor → Option (List String)
  | [] => some []
  | s :: rest =>
    match s.param with
    | none => none
    | some p => (showParamNames rest).map (p :: ·)

section MergeLemmas

/-- Lemma: `updateFirstSensor` succeeds exactly when some descriptor carries the id. -/
theorem updateFirstSensor_eq_none_iff (sid : Int) (nv : List MPoint)
    (l : List Sensor) :
    updateFirstSensor sid nv l = none ↔ ∀ s ∈ l, s.id ≠ sid := by
  induction l with
  | nil => simp [updateFirstSensor]
  | cons s rest ih =>
    by_cases h : s.id = sid
    · simp [updateFirstSensor, h]
    · simp [updateFirstSensor, h, ih]

/-- Shape of a successful `updateFirstSensor`: the list splits at the first
descriptor carrying the id, which gets the new values; everything else is
unchanged. -/
theorem updateFirstSensor_eq_some (sid : Int) (nv : List MPoint)
    (l l' : List Sensor) (h : updateFirstSensor sid nv l = some l') :
    ∃ pre s post, l = pre ++ s :: post ∧ s.id = sid ∧
      (∀ t ∈ pre, t.id ≠ sid) ∧
      l' = pre ++ { s with values := some nv } :: post := by
  induction l generalizing l' with
  | nil => simp [updateFirstSensor] at h
  | cons s rest ih =>
    by_cases hs : s.id = sid
    · refine ⟨[], s, rest, by simp, hs, by simp, ?_⟩
      simp [updateFirstSensor, hs] at h
      subst hs
      simpa using h.symm
    · simp only [updateFirstSensor, hs, if_false, Option.map_eq_some'] at h
      obtain ⟨r', hr', rfl⟩ := h
      obtain ⟨pre, t, post, hsplit, hid, hpre, hres⟩ := ih r' hr'
      exact ⟨s :: pre, t, post, by simp [hsplit], hid,
        by simpa [hs] using hpre, by simp [hres]⟩

/-- When no descriptor of `pre` carries the id, the update walks past `pre`
and rewrites the first matching descriptor `x`. -/
theorem updateFirstSensor_append (sid : Int) (nv : List MPoint)
    (pre : List Sensor) (hpre : ∀ s ∈ pre, s.id ≠ sid)
    (x : Sensor) (post : List Sensor) (hx : x.id = sid) :
    updateFirstSensor sid nv (pre ++ x :: post)
      = some (pre ++ { x with values := some nv } :: post) := by
  induction pre with
  | nil => simp [updateFirstSensor, hx]
  | cons p pre' ih =>
    have hp : p.id ≠ sid := hpre p (by simp)
    have : ∀ s ∈ pre', s.id ≠ sid := fun s hs => hpre s (by simp [hs])
    simp [updateFirstSensor, hp, ih this]

/-- Merging a series for an id absent from the file appends a fresh
descriptor with no `param` field at the end; the rest of the file is kept
verbatim. -/
theorem mergeSensorValues_of_not_found (sid : Int) (nv : List MPoint)
    (file : List Sensor) (h : ∀ s ∈ file, s.id ≠ sid) :
    mergeSensorValues sid nv file
      = file ++ [{ id := sid, param := none, values := some nv }] := by
  unfold mergeSensorValues
  rw [(updateFirstSensor_eq_none_iff sid nv file).2 h]

/-- Merging a series for an id whose first occurrence is `x` (after a clean
prefix `pre`) rewrites exactly that descriptor's `values`. -/
theorem mergeSensorValues_split (sid : Int) (nv : List MPoint)
    (pre : List Sensor) (hpre : ∀ s ∈ pre, s.id ≠ sid)
    (x : Sensor) (post : List Sensor) (hx : x.id = sid) :
    mergeSensorValues sid nv (pre ++ x :: post)
      = pre ++ { x with values := some nv } :: post := by
  unfold mergeSensorValues
  rw [updateFirstSensor_append sid nv pre hpre x post hx]

/-- A merge never changes the multiset-of-ids except possibly appending the
merged id when it was absent. -/
theorem mergeSensorValues_map_id (sid : Int) (nv : List MPoint)
    (pre : List Sensor) (hpre : ∀ s ∈ pre, s.id ≠ sid)
    (x : Sensor) (post : List Sensor) (hx : x.id = sid) :
    (mergeSensorValues sid nv (pre ++ x :: post)).map Sensor.id
      = (pre ++ x :: post).map Sensor.id := by
  rw [mergeSensorValues_split sid nv pre hpre x post hx]
  simp

/-- Any station file splits at the first occurrence of an id it contains. -/
theorem exists_first_split (sid : Int) (file : List Sensor)
    (h : ∃ s ∈ file, s.id = sid) :
    ∃ pre x post, file = pre ++ x :: post ∧ x.id = sid ∧
      ∀ s ∈ pre, s.id ≠ sid := by
  induction file with
  | nil => simp at h
  | cons s rest ih =>
    by_cases hs : s.id = sid
    · exact ⟨[], s, rest, by simp, hs, by simp⟩
    · obtain ⟨t, ht, hts⟩ := h
      rcases List.mem_cons.1 ht with rfl | ht'
      · exact absurd hts hs
      · obtain ⟨pre, x, post, hsplit, hx, hpre⟩ := ih ⟨t, ht', hts⟩
        exact ⟨s :: pre, x, post, by simp [hsplit], hx,
          by simpa [hs] using hpre⟩

/-- Merging preserves uniqueness of the `id` values in the file. -/
theorem nodup_ids_merge (sid : Int) (nv : List MPoint) (file : List Sensor)
    (h : (file.map Sensor.id).Nodup) :
    ((mergeSensorValues sid nv file).map Sensor.id).Nodup := by
  by_cases hmem : ∃ s ∈ file, s.id = sid
  · obtain ⟨pre, x, post, rfl, hx, hpre⟩ := exists_first_split sid file hmem
    rwa [mergeSensorValues_map_id sid nv pre hpre x post hx]
  · push_neg at hmem
    rw [mergeSensorValues_of_not_found sid nv file hmem]
    simp only [List.map_append, List.map_cons, List.map_nil]
    rw [List.nodup_append]
    refine ⟨h, List.nodup_singleton _, ?_⟩
    intro a ha hb
    simp only [List.mem_singleton] at hb
    subst hb
    obtain ⟨s, hs, rfl⟩ := List.mem_map.1 ha
    exact hmem s hs rfl

end MergeLemmas

/-- Claim C1: Merge last-write-wins (src/test4/main.cpp:366-399): for a
station file with unique sensor ids, merging series `v1` then `v2` for the
same sensor id leaves exactly one descriptor with that id and its values
are `v2`; the descriptor count is unchanged relative to after the first
merge (no duplicate entry); every descriptor with a different id is left
exactly as in the original file; and merging the same series twice yields
the same file as merging it once (idempotence). -/
theorem mergeSensorValues_last_write_wins (sid : Int) (v1 v2 : List MPoint)
    (file : List Sensor) (hu : (file.map Sensor.id).Nodup) :
    (((mergeSensorValues sid v2 (mergeSensorValues sid v1 file)).filter
        (fun s => s.id == sid)).map Sensor.values = [some v2])
    ∧ (mergeSensorValues sid v2 (mergeSensorValues sid v1 file)).length
        = (mergeSensorValues sid v1 file).length
    ∧ (mergeSensorValues sid v2 (mergeSensorValues sid v1 file)).filter
        (fun s => s.id != sid)
        = file.filter (fun s => s.id != sid)
    ∧ mergeSensorValues sid v1 (mergeSensorValues sid v1 file)
        = mergeSensorValues sid v1 file := by
  by_cases hmem : ∃ s ∈ file, s.id = sid
  · obtain ⟨pre, x, post, rfl, hx, hpre⟩ := exists_first_split sid file hmem
    have hpost : ∀ s ∈ post, s.id ≠ sid := by
      intro s hs
      have := hu
      simp only [List.map_append, List.map_cons, List.nodup_append,
        List.nodup_cons] at this
      intro hcontra
      exact this.2.1.1 (by rw [← hx] at hcontra; exact hcontra ▸ List.mem_map_of_mem Sensor.id hs)
    have h1 := mergeSensorValues_split sid v1 pre hpre x post hx
    have h2 := mergeSensorValues_split sid v2 pre hpre
      { x with values := some v1 } post hx
    have h11 := mergeSensorValues_split sid v1 pre hpre
      { x with values := some v1 } post hx
    rw [h1, h2, h11]
    refine ⟨?_, by simp, ?_, by simp⟩
    · have hpre' : pre.filter (fun s => s.id == sid) = [] :=
        List.filter_eq_nil_iff.2 (fun s hs => by simp [hpre s hs])
      have hpost' : post.filter (fun s => s.id == sid) = [] :=
        List.filter_eq_nil_iff.2 (fun s hs => by simp [hpost s hs])
      simp [List.filter_append, hpre', hpost', hx]
    · simp [List.filter_append, hx]
  · push_neg at hmem
    have h1 := mergeSensorValues_of_not_found sid v1 file hmem
    have happ : ∀ s ∈ file, s.id ≠ sid := hmem
    have h2 := mergeSensorValues_split sid v2 file happ
      { id := sid, param := none, values := some v1 } [] rfl
    have h11 := mergeSensorValues_split sid v1 file happ
      { id := sid, param := none, values := some v1 } [] rfl
    rw [h1, h2, h11]
    have hfil : file.filter (fun s => s.id == sid) = [] :=
      List.filter_eq_nil_iff.2 (fun s hs => by simp [hmem s hs])
    refine ⟨by simp [List.filter_append, hfil], by simp, ?_, rfl⟩
    simp [List.filter_append]

/-- Witness for C1 at a concrete station file and two concrete series. -/
theorem mergeSensorValues_last_write_wins_witness :
    (([Sensor.mk 7 (some "NO2") (some [])].map Sensor.id).Nodup)
    ∧ ((((mergeSensorValues 3 [MPoint.mk (some "2024-01-02") (some 5)]
          (mergeSensorValues 3 [MPoint.mk (some "2024-01-01") (some 1)]
            [Sensor.mk 7 (some "NO2") (some [])])).filter
        (fun s => s.id == 3)).map Sensor.values
          = [some [MPoint.mk (some "2024-01-02") (some 5)]])
      ∧ (mergeSensorValues 3 [MPoint.mk (some "2024-01-02") (some 5)]
          (mergeSensorValues 3 [MPoint.mk (some "2024-01-01") (some 1)]
            [Sensor.mk 7 (some "NO2") (some [])])).length
        = (mergeSensorValues 3 [MPoint.mk (some "2024-01-01") (some 1)]
            [Sensor.mk 7 (some "NO2") (some [])]).length
      ∧ (mergeSensorValues 3 [MPoint.mk (some "2024-01-02") (some 5)]
          (mergeSensorValues 3 [MPoint.mk (some "2024-01-01") (some 1)]
            [Sensor.mk 7 (some "NO2") (some [])])).filter
          (fun s => s.id != 3)
        = [Sensor.mk 7 (some "NO2") (some [])].filter (fun s => s.id != 3)
      ∧ mergeSensorValues 3 [MPoint.mk (some "2024-01-01") (some 1)]
          (mergeSensorValues 3 [MPoint.mk (some "2024-01-01") (some 1)]
            [Sensor.mk 7 (some "NO2") (some [])])
        = mergeSensorValues 3 [MPoint.mk (some "2024-01-01") (some 1)]
            [Sensor.mk 7 (some "NO2") (some [])]) :=
  ⟨by decide, mergeSensorValues_last_write_wins 3
    [MPoint.mk (some "2024-01-01") (some 1)]
    [MPoint.mk (some "2024-01-02") (some 5)]
    [Sensor.mk 7 (some "NO2") (some [])] (by decide)⟩

/-- Lemma: `showParamNames` fails as soon as one descriptor lacks its `param`
object, in particular when a param-less descriptor sits at the end. -/
theorem showParamNames_append_none (l : List Sensor) (s : Sensor)
    (hs : s.param = none) : showParamNames (l ++ [s]) = none := by
  induction l with
  | nil => simp [showParamNames, hs]
  | cons a l ih => cases ha : a.param <;> simp [showParamNames, ha, ih]

/-- Claim C10: A merge for a sensor id not yet present in the station file
appends the new descriptor at the end, carrying only the fields `id` and
`values` — its `param` object is absent (`none`), not an empty name — and
every pre-existing descriptor keeps its position verbatim.  Consequently a
consumer that reads `param.paramName` unconditionally (as
`MyFrame::ShowCityDetails` does) fails on the resulting file. -/
theorem mergeSensorValues_append_new (sid : Int) (nv : List MPoint)
    (file : List Sensor) (h : ∀ s ∈ file, s.id ≠ sid) :
    mergeSensorValues sid nv file
      = file ++ [{ id := sid, param := none, values := some nv }]
    ∧ showParamNames (mergeSensorValues sid nv file) = none := by
  have hm := mergeSensorValues_of_not_found sid nv file h
  exact ⟨hm, by rw [hm]; exact showParamNames_append_none file _ rfl⟩

/-- Witness for C10 at a concrete file and fresh sensor id. -/
theorem mergeSensorValues_append_new_witness :
    (∀ s ∈ [Sensor.mk 7 (some "NO2") (some [])], s.id ≠ 3)
    ∧ (mergeSensorValues 3 [MPoint.mk (some "2024-01-01") (some 1)]
          [Sensor.mk 7 (some "NO2") (some [])]
        = [Sensor.mk 7 (some "NO2") (some [])]
          ++ [{ id := 3, param := none,
                values := some [MPoint.mk (some "2024-01-01") (some 1)] }]
      ∧ showParamNames (mergeSensorValues 3
          [MPoint.mk (some "2024-01-01") (some 1)]
          [Sensor.mk 7 (some "NO2") (some [])]) = none) :=
  ⟨by decide, mergeSensorValues_append_new 3
    [MPoint.mk (some "2024-01-01") (some 1)]
    [Sensor.mk 7 (some "NO2") (some [])] (by decide)⟩

/-- A sequence of store operations is *payload-clean* when every
descriptor-list refresh it contains carries a payload with pairwise
distinct sensor ids (what the upstream sensors-for-station endpoint
delivers). -/
def refreshPayloadNodup : StoreOp → Prop
  | .merge _ _ => True
  | .refresh payload => (payload.map Sensor.id).Nodup

instance : DecidablePred refreshPayloadNodup := fun op =>
  match op with
  | .merge _ _ => inferInstanceAs (Decidable True)
  | .refresh payload =>
    inferInstanceAs (Decidable ((payload.map Sensor.id).Nodup))

/-- Uniqueness of sensor ids is preserved by any payload-clean sequence of
operations, from any file already satisfying it. -/
theorem nodup_ids_applyOps (ops : List StoreOp) (file : List Sensor)
    (hfile : (file.map Sensor.id).Nodup)
    (hops : ∀ op ∈ ops, refreshPayloadNodup op) :
    ((applyOps file ops).map Sensor.id).Nodup := by
  induction ops generalizing file with
  | nil => simpa [applyOps] using hfile
  | cons op rest ih =>
    have hop := hops op (by simp)
    have hrest : ∀ o ∈ rest, refreshPayloadNodup o :=
      fun o ho => hops o (by simp [ho])
    have : applyOps file (op :: rest) = applyOps (applyOp file op) rest := rfl
    rw [this]
    refine ih (applyOp file op) ?_ hrest
    cases op with
    | merge sid nv => exact nodup_ids_merge sid nv file hfile
    | refresh payload => simpa [applyOp, updateData, refreshPayloadNodup] using hop

/-- Claim C9, counterexample to the claim as stated: A single
descriptor-list refresh whose fetched payload itself repeats a sensor id
is written to the station file verbatim (`updateData` deduplicates
nothing), so a file reached from the empty file by merge/refresh
operations can contain two descriptors with the same `sensorId`. -/
theorem applyOps_dup_ids_counterexample :
    ¬ ((applyOps []
        [StoreOp.refresh [Sensor.mk 1 none none, Sensor.mk 1 none none]]).map
          Sensor.id).Nodup := by
  decide

/-- Claim C9, amended: Starting from an absent or empty station file, after
any sequence of value merges and descriptor-list refreshes *whose refresh
payloads each list every sensor id at most once*, no two descriptors of
the resulting station file share a `sensorId`. -/
theorem nodup_ids_after_ops (ops : List StoreOp)
    (hops : ∀ op ∈ ops, refreshPayloadNodup op) :
    ((applyOps [] ops).map Sensor.id).Nodup :=
  nodup_ids_applyOps ops [] (by simp) hops

/-- Witness for the amended C9 on a concrete refresh-then-merge history. -/
theorem nodup_ids_after_ops_witness :
    (∀ op ∈ [StoreOp.refresh [Sensor.mk 1 (some "PM10") none,
                Sensor.mk 2 (some "NO2") none],
              StoreOp.merge 3 [MPoint.mk (some "2024-01-01") (some 5)],
              StoreOp.merge 1 [MPoint.mk (some "2024-01-01") (some 2)]],
        refreshPayloadNodup op)
    ∧ ((applyOps []
        [StoreOp.refresh [Sensor.mk 1 (some "PM10") none,
            Sensor.mk 2 (some "NO2") none],
          StoreOp.merge 3 [MPoint.mk (some "2024-01-01") (some 5)],
          StoreOp.merge 1 [MPoint.mk (some "2024-01-01") (some 2)]]).map
            Sensor.id).Nodup :=
  ⟨by decide, nodup_ids_after_ops _ (by decide)⟩

/-- Claim C4, counterexample to the claim as stated: A descriptor-list
refresh overwrites the whole station file with the fetched payload
(`updateData` → `fetchAndSaveData`, which never reads the old file), and
the sensors-for-station payload carries no `values` field — so the value
series already stored for sensor 1 is lost, not left untouched. -/
theorem updateData_values_lost_counterexample :
    updateData (some [Sensor.mk 1 (some "PM10") none])
        [Sensor.mk 1 (some "PM10")
          (some [MPoint.mk (some "2024-01-01") (some 7)])]
      = [Sensor.mk 1 (some "PM10") none]
    ∧ (Sensor.mk 1 (some "PM10") none).values
      ≠ (Sensor.mk 1 (some "PM10")
          (some [MPoint.mk (some "2024-01-01") (some 7)])).values := by
  exact ⟨rfl, by simp⟩

/-- Claim C4, amended: A descriptor-list refresh replaces the station file
wholesale with the successfully parsed fetched payload: the result is the
payload itself, independent of whatever the file held before (previously
stored value series included); only a payload that fails to parse leaves
the file as it was. -/
theorem updateData_replaces_wholesale (payload old other : List Sensor) :
    updateData (some payload) old = payload
    ∧ updateData (some payload) old = updateData (some payload) other
    ∧ updateData none old = old :=
  ⟨rfl, rfl, rfl⟩

/-- Result of `GraphPanel::CalculateTrend`, whose C++ return strings are
"Not enough data", "Undefined trend", "Rising", "Falling", "Stable". -/
inductive Trend where
  | notEnoughData
  | undefinedTrend
  | rising
  | falling
  | stable
  deriving DecidableEq, Repr

/-- The accumulation loop of `GraphPanel::CalculateTrend`
(src/test4/main.cpp:215-222): one pass over the series, `x` starting at 0
and incremented per element, accumulating
`(sumX, sumY, sumXY, sumX2)`. -/
def trendGo : ℚ → ℚ × ℚ × ℚ × ℚ → List ℚ → ℚ × ℚ × ℚ × ℚ
  | _, acc, [] => acc
  | x, (sumX, sumY, sumXY, sumX2), y :: rest =>
    trendGo (x + 1) (sumX + x, sumY + y, sumXY + x * y, sumX2 + x * x) rest

/-- Model of `GraphPanel::CalculateTrend` (src/test4/main.cpp:203-239): fewer than
two points is "Not enough data"; otherwise compute the least-squares
slope over index-vs-value, guard a zero denominator, and classify against
the fixed threshold `slopdeg = 0.1763`. -/
def calculateTrend (values : List ℚ) : Trend :=
  if values.length < 2 then .notEnoughData
  else
    let n : ℚ := values.length
    let s := trendGo 0 (0, 0, 0, 0) values
    let denominator := n * s.2.2.2 - s.1 * s.1
    if denominator = 0 then .undefinedTrend
    else
      let slope := (n * s.2.2.1 - s.1 * s.2.1) / denominator
      if slope > 1763 / 10000 then .rising
      else if slope < -(1763 / 10000) then .falling
      else .stable

/-- Sum `Σx` of the claim's least-squares formula, with `x = 0..n-1`. -/
def claimSumX (values : List ℚ) : ℚ :=
  ∑ i in Finset.range values.length, (i : ℚ)

/-- Sum `Σxy` of the claim's least-squares formula, `y` the series values. -/
def claimSumXY (values : List ℚ) : ℚ :=
  ∑ i in Finset.range values.length, (i : ℚ) * values.getD i 0

/-- Sum `Σx²` of the claim's least-squares formula. -/
def claimSumX2 (values : List ℚ) : ℚ :=
  ∑ i in Finset.range values.length, (i : ℚ) * (i : ℚ)

/-- Denominator `n·Σx² − (Σx)²` of the claim's slope formula. -/
def slopeDen (values : List ℚ) : ℚ :=
  values.length * claimSumX2 values - claimSumX values * claimSumX values

/-- The claim's slope `(n·Σxy − Σx·Σy) / (n·Σx² − (Σx)²)`. -/
def slopeOf (values : List ℚ) : ℚ :=
  (values.length * claimSumXY values - claimSumX values * values.sum)
    / slopeDen values

section TrendLemmas

/-- Shifting the start of an offset-indexed range sum by one. -/
theorem sum_range_shift (f : ℚ → ℚ) (x : ℚ) (n : ℕ) :
    ∑ i in Finset.range (n + 1), f (x + (i : ℚ))
      = f x + ∑ i in Finset.range n, f (x + 1 + (i : ℚ)) := by
  rw [Finset.sum_range_succ', add_comm]
  congr 1
  · exact congrArg f (by norm_num)
  · exact Finset.sum_congr rfl fun i _ => congrArg f (by push_cast; ring)

/-- The shift of the `Σxy`-style sum across a `cons`. -/
theorem sum_range_shift_getD (x y : ℚ) (rest : List ℚ) :
    ∑ i in Finset.range (rest.length + 1),
        (x + (i : ℚ)) * ((y :: rest).getD i 0)
      = x * y + ∑ i in Finset.range rest.length,
          (x + 1 + (i : ℚ)) * rest.getD i 0 := by
  rw [Finset.sum_range_succ', add_comm]
  congr 1
  · simp
  · refine Finset.sum_congr rfl fun i _ => ?_
    rw [List.getD_cons_succ]
    push_cast
    ring

/-- Closed form of the accumulation loop: it computes exactly the four
sums of the least-squares formula, offset by the start index `x` and the
initial accumulator. -/
theorem trendGo_eq (l : List ℚ) : ∀ x a b c d : ℚ,
    trendGo x (a, b, c, d) l
      = (a + ∑ i in Finset.range l.length, (x + (i : ℚ)),
         b + l.sum,
         c + ∑ i in Finset.range l.length, (x + (i : ℚ)) * l.getD i 0,
         d + ∑ i in Finset.range l.length, (x + (i : ℚ)) * (x + (i : ℚ))) := by
  induction l with
  | nil => intro x a b c d; simp [trendGo]
  | cons y rest ih =>
    intro x a b c d
    rw [trendGo, ih]
    simp only [List.length_cons, Prod.mk.injEq]
    refine ⟨?_, ⟨by simp [List.sum_cons]; ring, ⟨?_, ?_⟩⟩⟩
    · rw [sum_range_shift (fun t => t) x rest.length]
      ring
    · rw [sum_range_shift_getD x y rest]
      ring
    · rw [sum_range_shift (fun t => t * t) x rest.length]
      ring

/-- The loop started from zero computes the claim's sums. -/
theorem trendGo_zero (values : List ℚ) :
    trendGo 0 (0, 0, 0, 0) values
      = (claimSumX values, values.sum, claimSumXY values,
         claimSumX2 values) := by
  rw [trendGo_eq]
  simp [claimSumX, claimSumXY, claimSumX2]

end TrendLemmas

/-- The threshold classification at the end of
`GraphPanel::CalculateTrend`, characterised per constructor. -/
theorem classifyTrend_iff (q : ℚ) :
    ((if q > 1763 / 10000 then Trend.rising
      else if q < -(1763 / 10000) then Trend.falling
      else Trend.stable) = Trend.rising ↔ q > 1763 / 10000)
    ∧ ((if q > 1763 / 10000 then Trend.rising
        else if q < -(1763 / 10000) then Trend.falling
        else Trend.stable) = Trend.falling ↔ q < -(1763 / 10000))
    ∧ ((if q > 1763 / 10000 then Trend.rising
        else if q < -(1763 / 10000) then Trend.falling
        else Trend.stable) = Trend.stable
      ↔ ¬ q > 1763 / 10000 ∧ ¬ q < -(1763 / 10000)) := by
  by_cases h1 : q > 1763 / 10000
  · have h2 : ¬ q < -(1763 / 10000) := by linarith
    simp [h1, h2]
  · by_cases h2 : q < -(1763 / 10000)
    · simp [h1, h2]
    · simp [h1, h2]

/-- Claim C2: `GraphPanel::CalculateTrend` returns `NotEnoughData` iff the
series has fewer than two points; otherwise it computes the least-squares
slope `(n·Σxy − Σx·Σy) / (n·Σx² − (Σx)²)` with `x = 0..n−1`, returns
`UndefinedTrend` iff that denominator is 0, and otherwise classifies
`Rising` iff `slope > 0.1763`, `Falling` iff `slope < −0.1763`, `Stable`
otherwise; the four example series behave as stated. -/
theorem calculateTrend_spec (values : List ℚ) :
    (calculateTrend values = .notEnoughData ↔ values.length < 2)
    ∧ (2 ≤ values.length →
        (calculateTrend values = .undefinedTrend ↔ slopeDen values = 0)
        ∧ (slopeDen values ≠ 0 →
            (calculateTrend values = .rising
              ↔ slopeOf values > 1763 / 10000)
            ∧ (calculateTrend values = .falling
              ↔ slopeOf values < -(1763 / 10000))
            ∧ (calculateTrend values = .stable
              ↔ ¬ slopeOf values > 1763 / 10000
                ∧ ¬ slopeOf values < -(1763 / 10000))))
    ∧ calculateTrend [1, 2, 3, 4, 5] = .rising
    ∧ calculateTrend [5, 4, 3, 2, 1] = .falling
    ∧ calculateTrend [3, 3, 3, 3, 3] = .stable
    ∧ ∀ x : ℚ, calculateTrend [x] = .notEnoughData := by
  have e1 : ((values.length : ℚ) * claimSumX2 values
      - claimSumX values * claimSumX values) = slopeDen values := rfl
  have e2 : ((values.length : ℚ) * claimSumXY values
      - claimSumX values * values.sum) / slopeDen values
      = slopeOf values := rfl
  refine ⟨?_, ?_, by norm_num [calculateTrend, trendGo],
    by norm_num [calculateTrend, trendGo],
    by norm_num [calculateTrend, trendGo], fun x => rfl⟩
  · by_cases hlen : values.length < 2
    · simp [calculateTrend, hlen]
    · simp only [calculateTrend, hlen, if_false, trendGo_zero]
      split_ifs <;> simp
  · intro hlen
    have hlen' : ¬ values.length < 2 := by omega
    constructor
    · simp only [calculateTrend, trendGo_zero]
      rw [if_neg hlen', e1]
      split_ifs with h <;> simp [h]
    · intro hd
      simp only [calculateTrend, trendGo_zero]
      rw [if_neg hlen', e1, if_neg hd, e2]
      exact classifyTrend_iff (slopeOf values)

/-- Witness for C2's conditional parts at the series `[1,2,3,4,5]`. -/
theorem calculateTrend_spec_witness :
    (2 ≤ ([1, 2, 3, 4, 5] : List ℚ).length)
    ∧ slopeDen [1, 2, 3, 4, 5] ≠ 0
    ∧ ((calculateTrend [1, 2, 3, 4, 5] = .rising
          ↔ slopeOf [1, 2, 3, 4, 5] > 1763 / 10000)
        ∧ (calculateTrend [1, 2, 3, 4, 5] = .falling
          ↔ slopeOf [1, 2, 3, 4, 5] < -(1763 / 10000))
        ∧ (calculateTrend [1, 2, 3, 4, 5] = .stable
          ↔ ¬ slopeOf [1, 2, 3, 4, 5] > 1763 / 10000
            ∧ ¬ slopeOf [1, 2, 3, 4, 5] < -(1763 / 10000))) := by
  have h2 : 2 ≤ ([1, 2, 3, 4, 5] : List ℚ).length := by norm_num
  have hd : slopeDen [1, 2, 3, 4, 5] ≠ 0 := by
    norm_num [slopeDen, claimSumX, claimSumX2, Finset.sum_range_succ]
  exact ⟨h2, hd, ((calculateTrend_spec [1, 2, 3, 4, 5]).2.1 h2).2 hd⟩

/-- One catalog entry of `database.json`, as written by `init`
(src/test4/main.cpp:324-332): `{id, provinceName, cityName, gegrLat,
geogrLon}`. -/
structure Station where
  id : Int
  provinceName : String
  cityName : String
  gegrLat : ℚ
  geogrLon : ℚ
  deriving DecidableEq, Repr

/-- Model of `MyFrame::Haversine` (src/test4/main.cpp:554-559): despite its name, a
signed coordinate-difference sum `(lat1−lat2) + (lon1−lon2)`. -/
def haversine (lat1 lon1 lat2 lon2 : ℚ) : ℚ :=
  (lat1 - lat2) + (lon1 - lon2)

/-- Distance from the query point to a station, as called at
src/test4/main.cpp:526. -/
def stationDistance (userLat userLon : ℚ) (st : Station) : ℚ :=
  haversine userLat userLon st.gegrLat st.geogrLon

/-- The scan loop of the coordinate branch of `MyFrame::OnSearch`
(src/test4/main.cpp:521-531): a running minimum updated only when a
station is strictly closer (`distance < minDistance`). -/
def nearestGo (userLat userLon : ℚ) (best : Station) (m : ℚ) :
    List Station → Station × ℚ
  | [] => (best, m)
  | st :: rest =>
    if stationDistance userLat userLon st < m then
      nearestGo userLat userLon st (stationDistance userLat userLon st) rest
    else
      nearestGo userLat userLon best m rest

/-- The whole coordinate search: `minDistance` starts at
`numeric_limits<double>::max()`, so the first station always becomes the
running best; an empty catalog selects no station at all (the subsequent
`closestStation["id"]` access fails — the `EmptyCatalog` outcome,
modelled as `none`). -/
def nearestStation (userLat userLon : ℚ) :
    List Station → Option (Station × ℚ)
  | [] => none
  | st :: rest =>
    some (nearestGo userLat userLon st
      (stationDistance userLat userLon st) rest)

/-- Invariant of the scan loop: either no station beats the incoming best
strictly and the accumulator survives, or the result is the first station
of the remaining list attaining the strict running minimum. -/
theorem nearestGo_spec (u v : ℚ) (l : List Station) : ∀ best m,
    (nearestGo u v best m l = (best, m)
      ∧ ∀ st ∈ l, m ≤ stationDistance u v st)
    ∨ (∃ pre st post, l = pre ++ st :: post
        ∧ nearestGo u v best m l = (st, stationDistance u v st)
        ∧ stationDistance u v st < m
        ∧ (∀ t ∈ pre, stationDistance u v st < stationDistance u v t)
        ∧ (∀ t ∈ l, stationDistance u v st ≤ stationDistance u v t)) := by
  induction l with
  | nil => intro best m; exact Or.inl ⟨rfl, by simp⟩
  | cons st0 rest ih =>
    intro best m
    by_cases h0 : stationDistance u v st0 < m
    · rcases ih st0 (stationDistance u v st0) with ⟨hres, hall⟩ |
        ⟨pre, st, post, hsplit, hres, hlt, hpre, hall⟩
      · refine Or.inr ⟨[], st0, rest, by simp, ?_, h0, by simp, ?_⟩
        · simpa [nearestGo, h0] using hres
        · intro t ht
          rcases List.mem_cons.1 ht with rfl | ht'
          · exact le_refl _
          · exact hall t ht'
      · refine Or.inr ⟨st0 :: pre, st, post, by simp [hsplit], ?_,
          lt_trans hlt h0, ?_, ?_⟩
        · simpa [nearestGo, h0] using hres
        · intro t ht
          rcases List.mem_cons.1 ht with rfl | ht'
          · exact hlt
          · exact hpre t ht'
        · intro t ht
          rcases List.mem_cons.1 ht with rfl | ht'
          · exact le_of_lt hlt
          · exact hall t ht'
    · rcases ih best m with ⟨hres, hall⟩ |
        ⟨pre, st, post, hsplit, hres, hlt, hpre, hall⟩
      · refine Or.inl ⟨by simpa [nearestGo, h0] using hres, ?_⟩
        intro t ht
        rcases List.mem_cons.1 ht with rfl | ht'
        · exact le_of_not_lt h0
        · exact hall t ht'
      · refine Or.inr ⟨st0 :: pre, st, post, by simp [hsplit], ?_,
          hlt, ?_, ?_⟩
        · simpa [nearestGo, h0] using hres
        · intro t ht
          rcases List.mem_cons.1 ht with rfl | ht'
          · exact lt_of_lt_of_le hlt (le_of_not_lt h0)
          · exact hpre t ht'
        · intro t ht
          rcases List.mem_cons.1 ht with rfl | ht'
          · exact le_of_lt (lt_of_lt_of_le hlt (le_of_not_lt h0))
          · exact hall t ht'

/-- Claim C3: The coordinate search fails exactly on an empty catalog
(`EmptyCatalog`, modelled as `none`); otherwise it returns a station at
its legacy metric distance `(lat1−lat2) + (lon1−lon2)`, that distance is
minimal over the whole catalog, and every station listed before the
returned one is strictly farther — so among equally-near stations the
first in catalog order wins. -/
theorem nearestStation_spec (u v : ℚ) (catalog : List Station) :
    (nearestStation u v catalog = none ↔ catalog = [])
    ∧ (∀ st d, nearestStation u v catalog = some (st, d) →
        d = stationDistance u v st
        ∧ (∀ t ∈ catalog, d ≤ stationDistance u v t)
        ∧ ∃ pre post, catalog = pre ++ st :: post
            ∧ ∀ t ∈ pre, d < stationDistance u v t) := by
  constructor
  · cases catalog <;> simp [nearestStation]
  · intro st d hres
    cases catalog with
    | nil => simp [nearestStation] at hres
    | cons st0 rest =>
      simp only [nearestStation, Option.some_inj] at hres
      rcases nearestGo_spec u v rest st0 (stationDistance u v st0) with
        ⟨hgo, hall⟩ | ⟨pre, st', post, hsplit, hgo, hlt, hpre, hall⟩
      · rw [hgo] at hres
        injection hres with h1 h2
        subst h1
        subst h2
        refine ⟨rfl, ?_, [], rest, rfl, by simp⟩
        intro t ht
        rcases List.mem_cons.1 ht with rfl | ht'
        · exact le_refl _
        · exact hall t ht'
      · rw [hgo] at hres
        injection hres with h1 h2
        subst h1
        subst h2
        refine ⟨rfl, ?_, st0 :: pre, post, by simp [hsplit], ?_⟩
        · intro t ht
          rcases List.mem_cons.1 ht with rfl | ht'
          · exact le_of_lt hlt
          · exact hall t ht'
        · intro t ht
          rcases List.mem_cons.1 ht with rfl | ht'
          · exact hlt
          · exact hpre t ht'

/-- Witness for C3 at a two-station tie: both stations sit at metric
distance −2 from the query, and the scan returns the first one. -/
theorem nearestStation_spec_witness :
    (nearestStation 0 0 [Station.mk 1 "P" "A" 1 1, Station.mk 2 "P" "B" 2 0]
        = some (Station.mk 1 "P" "A" 1 1, -2))
    ∧ ((-2 : ℚ) = stationDistance 0 0 (Station.mk 1 "P" "A" 1 1)
        ∧ (∀ t ∈ [Station.mk 1 "P" "A" 1 1, Station.mk 2 "P" "B" 2 0],
            -2 ≤ stationDistance 0 0 t)
        ∧ ∃ pre post,
            [Station.mk 1 "P" "A" 1 1, Station.mk 2 "P" "B" 2 0]
              = pre ++ Station.mk 1 "P" "A" 1 1 :: post
            ∧ ∀ t ∈ pre, -2 < stationDistance 0 0 t) := by
  have h : nearestStation 0 0
      [Station.mk 1 "P" "A" 1 1, Station.mk 2 "P" "B" 2 0]
      = some (Station.mk 1 "P" "A" 1 1, -2) := by
    norm_num [nearestStation, nearestGo, stationDistance, haversine]
  exact ⟨h, (nearestStation_spec 0 0
    [Station.mk 1 "P" "A" 1 1, Station.mk 2 "P" "B" 2 0]).2 _ _ h⟩

/-- Value of a list of decimal digit characters. -/
def digitsVal (ds : List Char) : Nat :=
  ds.foldl (fun n c => 10 * n + (c.toNat - 48)) 0

/-- Model of `std::stod` on the coordinate strings of the raw station
dump (src/test4/main.cpp:321-322): skip leading spaces, accept an
optional sign, then digits with an optional fractional part; ignore
trailing characters; fail (`std::invalid_argument`) when no digits at all
can be consumed.  Exponent and hexadecimal forms, which the upstream
coordinates never use, are not modelled. -/
def stod? (s : String) : Option ℚ :=
  let cs := s.toList.dropWhile (· = ' ')
  let sign : ℚ := if cs.head? = some '-' then -1 else 1
  let cs := if cs.head? = some '-' ∨ cs.head? = some '+' then cs.tail else cs
  let intDigits := cs.takeWhile Char.isDigit
  let rest := cs.dropWhile Char.isDigit
  let fracDigits :=
    match rest with
    | '.' :: t => t.takeWhile Char.isDigit
    | _ => []
  if intDigits.isEmpty ∧ fracDigits.isEmpty then none
  else
    some (sign * ((digitsVal intDigits : ℚ)
      + (digitsVal fracDigits : ℚ) / (10 : ℚ) ^ fracDigits.length))

/-- The nested city object of a raw upstream station record:
`city.name` and `city.commune.provinceName`
(src/test4/main.cpp:317-319). -/
structure RawCity where
  name : String
  communeProvinceName : String
  deriving DecidableEq, Repr

/-- One raw upstream station record as consumed by `init`
(src/test4/main.cpp:315-333): an `id`, an optional `city` object, and
string-encoded coordinates. -/
structure RawStation where
  id : Int
  city : Option RawCity
  gegrLat : String
  geogrLon : String
  deriving DecidableEq, Repr

/-- The only failure of the catalog build: `std::stod` raising
`std::invalid_argument` on a coordinate string holding no number; `init`
has no handler for it, so it escapes the loop. -/
inductive BuildError where
  | invalidNumber (s : String)
  deriving DecidableEq, Repr

/-- The catalog-build loop of `init` (src/test4/main.cpp:313-334): keep
records containing a `city` object, extract city name, id, province name,
convert `gegrLat` then `geogrLon` with `std::stod`, and collect the
entries in source order.  An unparsable coordinate string raises out of
the whole loop: no catalog at all is produced. -/
def buildCatalog : List RawStation → Except BuildError (List Station)
  | [] => .ok []
  | r :: rest =>
    match r.city with
    | none => buildCatalog rest
    | some c =>
      match stod? r.gegrLat with
      | none => .error (.invalidNumber r.gegrLat)
      | some lat =>
        match stod? r.geogrLon with
        | none => .error (.invalidNumber r.geogrLon)
        | some lon =>
          (buildCatalog rest).map
            (Station.mk r.id c.communeProvinceName c.name lat lon :: ·)

/-- The per-record extraction the claim describes: a record is kept iff
it has a `city` object and both coordinate strings parse. -/
def rawToStation? (r : RawStation) : Option Station :=
  match r.city with
  | none => none
  | some c =>
    match stod? r.gegrLat, stod? r.geogrLon with
    | some lat, some lon =>
      some (Station.mk r.id c.communeProvinceName c.name lat lon)
    | _, _ => none

/-- Claim C5, counterexample to the claim as stated: A record whose
latitude string is not a valid number does not just lose that record: the
whole build aborts with the `std::stod` failure and no catalog of the
remaining records is produced. -/
theorem buildCatalog_abort_counterexample :
    buildCatalog
      [RawStation.mk 1 (some (RawCity.mk "Alpha" "Prov")) "50" "19",
        RawStation.mk 2 (some (RawCity.mk "Beta" "Prov")) "abc" "20",
        RawStation.mk 3 (some (RawCity.mk "Gamma" "Prov")) "51" "21"]
      = .error (.invalidNumber "abc")
    ∧ ∀ catalog, buildCatalog
      [RawStation.mk 1 (some (RawCity.mk "Alpha" "Prov")) "50" "19",
        RawStation.mk 2 (some (RawCity.mk "Beta" "Prov")) "abc" "20",
        RawStation.mk 3 (some (RawCity.mk "Gamma" "Prov")) "51" "21"]
      ≠ .ok catalog := by
  have h : buildCatalog
      [RawStation.mk 1 (some (RawCity.mk "Alpha" "Prov")) "50" "19",
        RawStation.mk 2 (some (RawCity.mk "Beta" "Prov")) "abc" "20",
        RawStation.mk 3 (some (RawCity.mk "Gamma" "Prov")) "51" "21"]
      = .error (.invalidNumber "abc") := by rfl
  exact ⟨h, fun catalog hc => by cases h.symm.trans hc⟩

/-- Claim C5, amended: The build keeps exactly the records containing a
city object, in source order — but only when every kept record's
coordinate strings parse; as soon as one city-record carries an
unparsable coordinate string, the whole build fails with a `ParseError`
instead of skipping that record. -/
theorem buildCatalog_spec (dump : List RawStation) :
    ((∀ r ∈ dump, ∀ c, r.city = some c →
        (stod? r.gegrLat).isSome ∧ (stod? r.geogrLon).isSome) →
      buildCatalog dump = .ok (dump.filterMap rawToStation?))
    ∧ ((∃ r ∈ dump, ∃ c, r.city = some c ∧
        ((stod? r.gegrLat) = none ∨ (stod? r.geogrLon) = none)) →
      ∃ e, buildCatalog dump = .error e) := by
  induction dump with
  | nil => exact ⟨fun _ => rfl, fun h => by simp at h⟩
  | cons r rest ih =>
    constructor
    · intro h
      have hr := h r (by simp)
      have hrest : ∀ t ∈ rest, ∀ c, t.city = some c →
          (stod? t.gegrLat).isSome ∧ (stod? t.geogrLon).isSome :=
        fun t ht => h t (by simp [ht])
      cases hc : r.city with
      | none => simpa [buildCatalog, hc, rawToStation?] using ih.1 hrest
      | some c =>
        obtain ⟨hlat, hlon⟩ := hr c hc
        obtain ⟨lat, hlat'⟩ := Option.isSome_iff_exists.1 hlat
        obtain ⟨lon, hlon'⟩ := Option.isSome_iff_exists.1 hlon
        simp [buildCatalog, hc, hlat', hlon', rawToStation?, ih.1 hrest,
          Except.map]
    · rintro ⟨t, ht, c, htc, hbad⟩
      rcases List.mem_cons.1 ht with rfl | ht'
      · cases hc : t.city with
        | none => rw [hc] at htc; cases htc
        | some c' =>
          rcases hbad with hbad | hbad
          · exact ⟨.invalidNumber t.gegrLat, by simp [buildCatalog, hc, hbad]⟩
          · cases hlat : stod? t.gegrLat with
            | none => exact ⟨.invalidNumber t.gegrLat,
                by simp [buildCatalog, hc, hlat]⟩
            | some lat => exact ⟨.invalidNumber t.geogrLon,
                by simp [buildCatalog, hc, hlat, hbad]⟩
      · obtain ⟨e, he⟩ := ih.2 ⟨t, ht', c, htc, hbad⟩
        cases hc : r.city with
        | none => exact ⟨e, by simpa [buildCatalog, hc] using he⟩
        | some c' =>
          cases hlat : stod? r.gegrLat with
          | none => exact ⟨.invalidNumber r.gegrLat,
              by simp [buildCatalog, hc, hlat]⟩
          | some lat =>
            cases hlon : stod? r.geogrLon with
            | none => exact ⟨.invalidNumber r.geogrLon,
                by simp [buildCatalog, hc, hlat, hlon]⟩
            | some lon => exact ⟨e,
                by simp [buildCatalog, hc, hlat, hlon, he, Except.map]⟩

/-- Witness for the amended C5: a dump of one parsable city-record and
one record without a city object builds the one-entry catalog. -/
theorem buildCatalog_spec_witness :
    (∀ r ∈ [RawStation.mk 1 (some (RawCity.mk "Alpha" "Prov")) "50" "19",
        RawStation.mk 4 none "x" "y"], ∀ c, r.city = some c →
      (stod? r.gegrLat).isSome ∧ (stod? r.geogrLon).isSome)
    ∧ buildCatalog
        [RawStation.mk 1 (some (RawCity.mk "Alpha" "Prov")) "50" "19",
          RawStation.mk 4 none "x" "y"]
      = .ok ([RawStation.mk 1 (some (RawCity.mk "Alpha" "Prov")) "50" "19",
          RawStation.mk 4 none "x" "y"].filterMap rawToStation?) :=
  ⟨by decide, (buildCatalog_spec
    [RawStation.mk 1 (some (RawCity.mk "Alpha" "Prov")) "50" "19",
      RawStation.mk 4 none "x" "y"]).1 (by decide)⟩

/-- Split a character list at each occurrence of a dash. -/
def splitDash : List Char → List (List Char)
  | [] => [[]]
  | c :: rest =>
    if c = '-' then [] :: splitDash rest
    else
      match splitDash rest with
      | [] => [[c]]
      | g :: gs => (c :: g) :: gs

/-- A nonempty all-digit component, as a number. -/
def parseDigits (cs : List Char) : Option Nat :=
  if ¬ cs.isEmpty ∧ cs.all Char.isDigit then some (digitsVal cs) else none

/-- Model of `wxDateTime::ParseFormat(dateStr, "%Y-%m-%d")` followed by
the `IsValid()` check (src/test4/main.cpp:681-683): three dash-separated
numeric components with a calendar-plausible month and day.  The parsed
date is encoded as `y*10000 + m*100 + d`; with `m ≤ 12` and `d ≤ 31` this
encoding is strictly monotone in `(y, m, d)`, so `Nat` comparisons on it
model `wxDateTime` comparisons. -/
def parseDate (s : String) : Option Nat :=
  match splitDash s.toList with
  | [ys, ms, ds] =>
    match parseDigits ys, parseDigits ms, parseDigits ds with
    | some y, some m, some d =>
      if 1 ≤ m ∧ m ≤ 12 ∧ 1 ≤ d ∧ d ≤ 31 then
        some (y * 10000 + m * 100 + d)
      else none
    | _, _, _ => none
  | _ => none

/-- The per-point test of `MyFrame::FilterSensorDataByDateRange`
(src/test4/main.cpp:674-686): skip a point whose `value` is missing or
null; read the date with `dataEntry.value("date", "1970-01-01")` — the
fallback string is used when the `date` field is ABSENT; keep the point
iff the resulting string parses and the date lies in the closed interval
`[startDate, endDate]`. -/
def keepPoint (startDate endDate : Nat) (p : MPoint) : Bool :=
  p.value.isSome &&
    match parseDate (p.date.getD "1970-01-01") with
    | some d => decide (startDate ≤ d) && decide (d ≤ endDate)
    | none => false

/-- Model of `MyFrame::FilterSensorDataByDateRange` (src/test4/main.cpp:664-692):
for each descriptor build a copy retaining only `id` (the `param` field is
not copied) plus the points passing the filter, in input order; a copy
that retained no point (`values.empty()`) is dropped from the result.
The callers pass only descriptors carrying a `values` field (see
`ShowSensorData`); an absent field is read as an empty series here. -/
def filterSensorDataByDateRange (startDate endDate : Nat) :
    List Sensor → List Sensor
  | [] => []
  | s :: rest =>
    let kept := (s.values.getD []).filter (keepPoint startDate endDate)
    if kept = [] then filterSensorDataByDateRange startDate endDate rest
    else Sensor.mk s.id none (some kept)
      :: filterSensorDataByDateRange startDate endDate rest

/-- The claim's per-point rule (C6 as stated): a point is kept only when
its `date` field is PRESENT, parses, and lies in the interval; an absent
date drops the point ("never defaulted"). -/
def keepPointClaim (startDate endDate : Nat) (p : MPoint) : Bool :=
  p.value.isSome &&
    match p.date with
    | none => false
    | some ds =>
      match parseDate ds with
      | some d => decide (startDate ≤ d) && decide (d ≤ endDate)
      | none => false

/-- The filter C6 describes, built from `keepPointClaim`. -/
def filterSpecClaim (startDate endDate : Nat)
    (sensorData : List Sensor) : List Sensor :=
  sensorData.filterMap fun s =>
    let kept := (s.values.getD []).filter (keepPointClaim startDate endDate)
    if kept = [] then none else some (Sensor.mk s.id none (some kept))

/-- The amended per-point rule: a present date must parse and lie in the
interval; an ABSENT date is defaulted to `1970-01-01` (encoded 19700101)
and the point is kept iff that fallback lies in the interval. -/
def keepPointAmended (startDate endDate : Nat) (p : MPoint) : Bool :=
  p.value.isSome &&
    match p.date with
    | some ds =>
      match parseDate ds with
      | some d => decide (startDate ≤ d) && decide (d ≤ endDate)
      | none => false
    | none => decide (startDate ≤ 19700101) && decide (19700101 ≤ endDate)

/-- The filter of the amended C6, built from `keepPointAmended`. -/
def filterSpecAmended (startDate endDate : Nat)
    (sensorData : List Sensor) : List Sensor :=
  sensorData.filterMap fun s =>
    let kept := (s.values.getD []).filter (keepPointAmended startDate endDate)
    if kept = [] then none else some (Sensor.mk s.id none (some kept))

/-- Claim C6, counterexample to the claim as stated: A point carrying a
value but NO date field is not dropped: the code defaults its date to
`"1970-01-01"`, which parses and lies in the queried interval, so the
point — and its descriptor — survive, while the claim requires the result
to be empty. -/
theorem filterByDateRange_default_counterexample :
    filterSensorDataByDateRange 19691231 19700102
        [Sensor.mk 1 none (some [MPoint.mk none (some 5)])]
      = [Sensor.mk 1 none (some [MPoint.mk none (some 5)])]
    ∧ filterSpecClaim 19691231 19700102
        [Sensor.mk 1 none (some [MPoint.mk none (some 5)])]
      = []
    ∧ filterSensorDataByDateRange 19691231 19700102
        [Sensor.mk 1 none (some [MPoint.mk none (some 5)])]
      ≠ filterSpecClaim 19691231 19700102
        [Sensor.mk 1 none (some [MPoint.mk none (some 5)])] := by
  refine ⟨by decide, by decide, by decide⟩

/-- The code's point test agrees with the amended rule on every point. -/
theorem keepPoint_eq_amended (startDate endDate : Nat) (p : MPoint) :
    keepPoint startDate endDate p = keepPointAmended startDate endDate p := by
  cases hd : p.date with
  | none =>
    have h1970 : parseDate "1970-01-01" = some 19700101 := by decide
    simp [keepPoint, keepPointAmended, hd, h1970]
  | some ds => simp [keepPoint, keepPointAmended, hd]

/-- Claim C6, amended: The date filter returns, for each input descriptor,
a copy retaining `sensorId` whose values are exactly the input points
that have a present (non-null) value and whose date — read as
`1970-01-01` when the `date` field is absent — parses as `YYYY-MM-DD` and
lies in the closed interval `[start, end]`; a present-but-unparsable date
drops its point; points keep their relative order; a copy retaining zero
points is dropped from the result entirely. -/
theorem filterByDateRange_spec (startDate endDate : Nat)
    (sensorData : List Sensor) :
    filterSensorDataByDateRange startDate endDate sensorData
      = filterSpecAmended startDate endDate sensorData := by
  induction sensorData with
  | nil => rfl
  | cons s rest ih =>
    have hp : (s.values.getD []).filter (keepPoint startDate endDate)
        = (s.values.getD []).filter (keepPointAmended startDate endDate) :=
      List.filter_congr fun p _ => keepPoint_eq_amended startDate endDate p
    by_cases hk : (s.values.getD []).filter
        (keepPointAmended startDate endDate) = []
    · have e1 : filterSensorDataByDateRange startDate endDate (s :: rest)
          = filterSensorDataByDateRange startDate endDate rest := by
        rw [filterSensorDataByDateRange]
        simp only [hp]
        exact if_pos hk
      have e2 : filterSpecAmended startDate endDate (s :: rest)
          = filterSpecAmended startDate endDate rest := by
        simp only [filterSpecAmended, List.filterMap_cons]
        rw [if_pos hk]
      rw [e1, e2, ih]
    · have e1 : filterSensorDataByDateRange startDate endDate (s :: rest)
          = Sensor.mk s.id none (some ((s.values.getD []).filter
              (keepPointAmended startDate endDate)))
            :: filterSensorDataByDateRange startDate endDate rest := by
        rw [filterSensorDataByDateRange]
        simp only [hp]
        exact if_neg hk
      have e2 : filterSpecAmended startDate endDate (s :: rest)
          = Sensor.mk s.id none (some ((s.values.getD []).filter
              (keepPointAmended startDate endDate)))
            :: filterSpecAmended startDate endDate rest := by
        simp only [filterSpecAmended, List.filterMap_cons]
        rw [if_neg hk]
      rw [e1, e2, ih]

/-- The inner extraction loop of `GraphPanel::DrawGraph`
(src/test4/main.cpp:66-74) over one descriptor's `values`: a point whose
`value` is missing or null is skipped (`continue`); for a kept point both
`value` and `date` are read — `dataEntry["date"]` on a point without a
date field fails, modelled as `none`. -/
def extractSensor : List MPoint → Option (List (String × ℚ))
  | [] => some []
  | p :: rest =>
    match p.value with
    | none => extractSensor rest
    | some v =>
      match p.date with
      | none => none
      | some d => (extractSensor rest).map ((d, v) :: ·)

/-- The outer extraction loop of `GraphPanel::DrawGraph`
(src/test4/main.cpp:66-74), flattening all descriptors' points in input
order; `sensor["values"]` on a descriptor without a `values` field fails,
modelled as `none` (the call sites pass only descriptors that contain
`values`). -/
def extractPoints : List Sensor → Option (List (String × ℚ))
  | [] => some []
  | s :: rest =>
    match s.values with
    | none => none
    | some vs =>
      match extractSensor vs with
      | none => none
      | some ps => (extractPoints rest).map (ps ++ ·)

/-- Model of `std::min_element` as used at src/test4/main.cpp:146-148: first index
(and value) of the strictly smallest element; the best is replaced only
on `*it < *smallest`, so ties keep the earlier index. -/
def minElemGo (bestIdx : Nat) (bestVal : ℚ) (i : Nat) : List ℚ → Nat × ℚ
  | [] => (bestIdx, bestVal)
  | v :: rest =>
    if v < bestVal then minElemGo i v (i + 1) rest
    else minElemGo bestIdx bestVal (i + 1) rest

/-- Model of `std::max_element` as used at src/test4/main.cpp:147-149: first index
(and value) of the strictly largest element. -/
def maxElemGo (bestIdx : Nat) (bestVal : ℚ) (i : Nat) : List ℚ → Nat × ℚ
  | [] => (bestIdx, bestVal)
  | v :: rest =>
    if bestVal < v then maxElemGo i v (i + 1) rest
    else maxElemGo bestIdx bestVal (i + 1) rest

/-- The statistics `GraphPanel::DrawGraph` renders under the chart
(src/test4/main.cpp:145-200): highlighted minimum and maximum with their
dates, average, current (most recent) value, and the trend string. -/
structure Stats where
  current : ℚ
  minVal : ℚ
  minDate : String
  maxVal : ℚ
  maxDate : String
  avg : ℚ
  trend : Trend
  deriving DecidableEq, Repr

/-- Observable outcome of `GraphPanel::DrawGraph`.  The routine returns
`void`: it either renders the chart with its statistics, or — when no
usable point survived extraction — hits `if (values.empty()) return;`
(src/test4/main.cpp:80-81) and silently draws nothing.  `crashed` models
a failed JSON field access.  `reportedNoData` is the outcome the spec
calls for on empty data (a `NoData` error surfaced to the caller); the
code has no path that produces it. -/
inductive DrawOutcome where
  | rendered (stats : Stats)
  | noRender
  | crashed
  | reportedNoData
  deriving DecidableEq, Repr

/-- Model of `GraphPanel::DrawGraph` (src/test4/main.cpp:38-201) reduced to its
data content: extract the `(date, value)` pairs in input order, reverse
both parallel arrays so the earliest date comes first, return early when
the value array is empty, and otherwise compute the displayed
statistics. -/
def drawGraph (sensorData : List Sensor) : DrawOutcome :=
  match extractPoints sensorData with
  | none => .crashed
  | some pts =>
    match (pts.map Prod.snd).reverse, (pts.map Prod.fst).reverse with
    | [], _ => .noRender
    | v0 :: vrest, dates =>
      let mn := minElemGo 0 v0 1 vrest
      let mx := maxElemGo 0 v0 1 vrest
      .rendered
        { current := (v0 :: vrest).getLastD 0
          minVal := mn.2
          minDate := dates.getD mn.1 ""
          maxVal := mx.2
          maxDate := dates.getD mx.1 ""
          avg := (v0 :: vrest).sum / ((v0 :: vrest).length : ℚ)
          trend := calculateTrend (v0 :: vrest) }

/-- Invariant of the `min_element` scan: either nothing in the list is
strictly below the incoming best (which then survives), or the scan
returns the first position of the running strict minimum, counted from
the incoming index `i`. -/
theorem minElemGo_spec (l : List ℚ) : ∀ (bestIdx : Nat) (bestVal : ℚ) (i : Nat),
    (minElemGo bestIdx bestVal i l = (bestIdx, bestVal)
      ∧ ∀ v ∈ l, bestVal ≤ v)
    ∨ (∃ j, ∃ hj : j < l.length,
        minElemGo bestIdx bestVal i l = (i + j, l.get ⟨j, hj⟩)
        ∧ l.get ⟨j, hj⟩ < bestVal
        ∧ (∀ v ∈ l, l.get ⟨j, hj⟩ ≤ v)
        ∧ ∀ k, ∀ hk : k < l.length, k < j → l.get ⟨j, hj⟩ < l.get ⟨k, hk⟩) := by
  induction l with
  | nil => intro bestIdx bestVal i; exact Or.inl ⟨rfl, by simp⟩
  | cons v rest ih =>
    intro bestIdx bestVal i
    have hstep : ∀ bi bv, minElemGo bi bv i (v :: rest)
        = if v < bv then minElemGo i v (i + 1) rest
          else minElemGo bi bv (i + 1) rest := fun bi bv => rfl
    by_cases hv : v < bestVal
    · rcases ih i v (i + 1) with ⟨hres, hall⟩ |
        ⟨j, hj, hres, hlt, hall, hfirst⟩
      · refine Or.inr ⟨0, by simp, ?_, hv, ?_, by omega⟩
        · rw [hstep, if_pos hv, hres]
          simp
        · intro u hu
          rcases List.mem_cons.1 hu with rfl | hu'
          · exact le_refl _
          · exact hall u hu'
      · refine Or.inr ⟨j + 1, by simpa using Nat.succ_lt_succ hj, ?_,
          lt_trans hlt hv, ?_, ?_⟩
        · rw [hstep, if_pos hv, show i + (j + 1) = i + 1 + j from by omega]
          exact hres
        · intro u hu
          rcases List.mem_cons.1 hu with rfl | hu'
          · exact le_of_lt hlt
          · exact hall u hu'
        · intro k hk hkj
          cases k with
          | zero => exact hlt
          | succ n => exact hfirst n (Nat.lt_of_succ_lt_succ hk) (Nat.lt_of_succ_lt_succ hkj)
    · rcases ih bestIdx bestVal (i + 1) with ⟨hres, hall⟩ |
        ⟨j, hj, hres, hlt, hall, hfirst⟩
      · refine Or.inl ⟨by rw [hstep, if_neg hv]; exact hres, ?_⟩
        intro u hu
        rcases List.mem_cons.1 hu with rfl | hu'
        · exact le_of_not_lt hv
        · exact hall u hu'
      · refine Or.inr ⟨j + 1, by simpa using Nat.succ_lt_succ hj, ?_,
          hlt, ?_, ?_⟩
        · rw [hstep, if_neg hv, show i + (j + 1) = i + 1 + j from by omega]
          exact hres
        · intro u hu
          rcases List.mem_cons.1 hu with rfl | hu'
          · exact le_of_lt (lt_of_lt_of_le hlt (le_of_not_lt hv))
          · exact hall u hu'
        · intro k hk hkj
          cases k with
          | zero => exact lt_of_lt_of_le hlt (le_of_not_lt hv)
          | succ n => exact hfirst n (Nat.lt_of_succ_lt_succ hk) (Nat.lt_of_succ_lt_succ hkj)

/-- Invariant of the `max_element` scan, dual to `minElemGo_spec`. -/
theorem maxElemGo_spec (l : List ℚ) : ∀ (bestIdx : Nat) (bestVal : ℚ) (i : Nat),
    (maxElemGo bestIdx bestVal i l = (bestIdx, bestVal)
      ∧ ∀ v ∈ l, v ≤ bestVal)
    ∨ (∃ j, ∃ hj : j < l.length,
        maxElemGo bestIdx bestVal i l = (i + j, l.get ⟨j, hj⟩)
        ∧ bestVal < l.get ⟨j, hj⟩
        ∧ (∀ v ∈ l, v ≤ l.get ⟨j, hj⟩)
        ∧ ∀ k, ∀ hk : k < l.length, k < j → l.get ⟨k, hk⟩ < l.get ⟨j, hj⟩) := by
  induction l with
  | nil => intro bestIdx bestVal i; exact Or.inl ⟨rfl, by simp⟩
  | cons v rest ih =>
    intro bestIdx bestVal i
    have hstep : ∀ bi bv, maxElemGo bi bv i (v :: rest)
        = if bv < v then maxElemGo i v (i + 1) rest
          else maxElemGo bi bv (i + 1) rest := fun bi bv => rfl
    by_cases hv : bestVal < v
    · rcases ih i v (i + 1) with ⟨hres, hall⟩ |
        ⟨j, hj, hres, hlt, hall, hfirst⟩
      · refine Or.inr ⟨0, by simp, ?_, hv, ?_, by omega⟩
        · rw [hstep, if_pos hv, hres]
          simp
        · intro u hu
          rcases List.mem_cons.1 hu with rfl | hu'
          · exact le_refl _
          · exact hall u hu'
      · refine Or.inr ⟨j + 1, by simpa using Nat.succ_lt_succ hj, ?_,
          lt_trans hv hlt, ?_, ?_⟩
        · rw [hstep, if_pos hv, show i + (j + 1) = i + 1 + j from by omega]
          exact hres
        · intro u hu
          rcases List.mem_cons.1 hu with rfl | hu'
          · exact le_of_lt hlt
          · exact hall u hu'
        · intro k hk hkj
          cases k with
          | zero => exact hlt
          | succ n => exact hfirst n (Nat.lt_of_succ_lt_succ hk) (Nat.lt_of_succ_lt_succ hkj)
    · rcases ih bestIdx bestVal (i + 1) with ⟨hres, hall⟩ |
        ⟨j, hj, hres, hlt, hall, hfirst⟩
      · refine Or.inl ⟨by rw [hstep, if_neg hv]; exact hres, ?_⟩
        intro u hu
        rcases List.mem_cons.1 hu with rfl | hu'
        · exact le_of_not_lt hv
        · exact hall u hu'
      · refine Or.inr ⟨j + 1, by simpa using Nat.succ_lt_succ hj, ?_,
          hlt, ?_, ?_⟩
        · rw [hstep, if_neg hv, show i + (j + 1) = i + 1 + j from by omega]
          exact hres
        · intro u hu
          rcases List.mem_cons.1 hu with rfl | hu'
          · exact le_of_lt (lt_of_le_of_lt (le_of_not_lt hv) hlt)
          · exact hall u hu'
        · intro k hk hkj
          cases k with
          | zero => exact lt_of_le_of_lt (le_of_not_lt hv) hlt
          | succ n => exact hfirst n (Nat.lt_of_succ_lt_succ hk) (Nat.lt_of_succ_lt_succ hkj)

/-- The `min_element` call over a nonempty value array `v0 :: vrest`
(best starts at index 0 with value `v0`, scan continues at index 1):
the result is the value and index of the first minimum. -/
theorem minElem_cons_spec (v0 : ℚ) (vrest : List ℚ) :
    ∃ i, ∃ hi : i < (v0 :: vrest).length,
      (minElemGo 0 v0 1 vrest).2 = (v0 :: vrest).get ⟨i, hi⟩
      ∧ (minElemGo 0 v0 1 vrest).1 = i
      ∧ (∀ v ∈ v0 :: vrest, (minElemGo 0 v0 1 vrest).2 ≤ v)
      ∧ ∀ k, ∀ hk : k < (v0 :: vrest).length, k < i →
          (minElemGo 0 v0 1 vrest).2 < (v0 :: vrest).get ⟨k, hk⟩ := by
  rcases minElemGo_spec vrest 0 v0 1 with ⟨hres, hall⟩ |
    ⟨j, hj, hres, hlt, hall, hfirst⟩
  · refine ⟨0, by simp, by simp [hres], by simp [hres], ?_, by omega⟩
    intro u hu
    simp only [hres]
    rcases List.mem_cons.1 hu with rfl | hu'
    · exact le_refl _
    · exact hall u hu'
  · refine ⟨j + 1, by simpa using Nat.succ_lt_succ hj, by simp [hres],
      by simp [hres, Nat.add_comm 1 j], ?_, ?_⟩
    · intro u hu
      simp only [hres]
      rcases List.mem_cons.1 hu with rfl | hu'
      · exact le_of_lt hlt
      · exact hall u hu'
    · intro k hk hkj
      simp only [hres]
      cases k with
      | zero => exact hlt
      | succ n => exact hfirst n (Nat.lt_of_succ_lt_succ hk) (Nat.lt_of_succ_lt_succ hkj)

/-- The `max_element` call over a nonempty value array, dual to
`minElem_cons_spec`. -/
theorem maxElem_cons_spec (v0 : ℚ) (vrest : List ℚ) :
    ∃ i, ∃ hi : i < (v0 :: vrest).length,
      (maxElemGo 0 v0 1 vrest).2 = (v0 :: vrest).get ⟨i, hi⟩
      ∧ (maxElemGo 0 v0 1 vrest).1 = i
      ∧ (∀ v ∈ v0 :: vrest, v ≤ (maxElemGo 0 v0 1 vrest).2)
      ∧ ∀ k, ∀ hk : k < (v0 :: vrest).length, k < i →
          (v0 :: vrest).get ⟨k, hk⟩ < (maxElemGo 0 v0 1 vrest).2 := by
  rcases maxElemGo_spec vrest 0 v0 1 with ⟨hres, hall⟩ |
    ⟨j, hj, hres, hlt, hall, hfirst⟩
  · refine ⟨0, by simp, by simp [hres], by simp [hres], ?_, by omega⟩
    intro u hu
    simp only [hres]
    rcases List.mem_cons.1 hu with rfl | hu'
    · exact le_refl _
    · exact hall u hu'
  · refine ⟨j + 1, by simpa using Nat.succ_lt_succ hj, by simp [hres],
      by simp [hres, Nat.add_comm 1 j], ?_, ?_⟩
    · intro u hu
      simp only [hres]
      rcases List.mem_cons.1 hu with rfl | hu'
      · exact le_of_lt hlt
      · exact hall u hu'
    · intro k hk hkj
      simp only [hres]
      cases k with
      | zero => exact hlt
      | succ n => exact hfirst n (Nat.lt_of_succ_lt_succ hk) (Nat.lt_of_succ_lt_succ hkj)

/-- Claim C7: On input whose extraction yields at least one usable point,
`DrawGraph` renders statistics over the REVERSED (chronologically
ascending) value/date arrays: `current` is the last post-reversal value,
`avg` the arithmetic mean, the trend is computed on the reversed series,
and the reported minimum and maximum sit at the first index achieving
each extreme (strictly below/above everything before that index, and no
larger/smaller than anything), each labelled with the date at the same
index. -/
theorem drawGraph_stats_spec (sensorData : List Sensor)
    (pts : List (String × ℚ))
    (hext : extractPoints sensorData = some pts) (hne : pts ≠ []) :
    ∃ st,
      drawGraph sensorData = .rendered st
      ∧ st.current = (pts.map Prod.snd).reverse.getLastD 0
      ∧ st.avg = (pts.map Prod.snd).reverse.sum
          / ((pts.map Prod.snd).reverse.length : ℚ)
      ∧ st.trend = calculateTrend (pts.map Prod.snd).reverse
      ∧ (∃ i, ∃ hi : i < (pts.map Prod.snd).reverse.length,
          st.minVal = (pts.map Prod.snd).reverse.get ⟨i, hi⟩
          ∧ st.minDate = (pts.map Prod.fst).reverse.getD i ""
          ∧ (∀ v ∈ (pts.map Prod.snd).reverse, st.minVal ≤ v)
          ∧ ∀ k, ∀ hk : k < (pts.map Prod.snd).reverse.length, k < i →
              st.minVal < (pts.map Prod.snd).reverse.get ⟨k, hk⟩)
      ∧ (∃ i, ∃ hi : i < (pts.map Prod.snd).reverse.length,
          st.maxVal = (pts.map Prod.snd).reverse.get ⟨i, hi⟩
          ∧ st.maxDate = (pts.map Prod.fst).reverse.getD i ""
          ∧ (∀ v ∈ (pts.map Prod.snd).reverse, v ≤ st.maxVal)
          ∧ ∀ k, ∀ hk : k < (pts.map Prod.snd).reverse.length, k < i →
              (pts.map Prod.snd).reverse.get ⟨k, hk⟩ < st.maxVal) := by
  cases hv : (pts.map Prod.snd).reverse with
  | nil =>
    exfalso
    apply hne
    simpa using hv
  | cons v0 vrest =>
    refine ⟨{ current := (v0 :: vrest).getLastD 0
              minVal := (minElemGo 0 v0 1 vrest).2
              minDate := (pts.map Prod.fst).reverse.getD
                (minElemGo 0 v0 1 vrest).1 ""
              maxVal := (maxElemGo 0 v0 1 vrest).2
              maxDate := (pts.map Prod.fst).reverse.getD
                (maxElemGo 0 v0 1 vrest).1 ""
              avg := (v0 :: vrest).sum / ((v0 :: vrest).length : ℚ)
              trend := calculateTrend (v0 :: vrest) },
      ?_, rfl, rfl, rfl, ?_, ?_⟩
    · simp only [drawGraph, hext, hv]
    · obtain ⟨i, hi, h1, h2, h3, h4⟩ := minElem_cons_spec v0 vrest
      refine ⟨i, hi, h1, ?_, h3, h4⟩
      exact congrArg (fun n => (pts.map Prod.fst).reverse.getD n "") h2
    · obtain ⟨i, hi, h1, h2, h3, h4⟩ := maxElem_cons_spec v0 vrest
      refine ⟨i, hi, h1, ?_, h3, h4⟩
      exact congrArg (fun n => (pts.map Prod.fst).reverse.getD n "") h2

/-- Witness for C7 at a concrete two-point descriptor (upstream order:
newest first). -/
theorem drawGraph_stats_spec_witness :
    (extractPoints [Sensor.mk 1 none (some
          [MPoint.mk (some "2024-01-02") (some 5),
            MPoint.mk (some "2024-01-01") (some 3)])]
        = some [("2024-01-02", (5 : ℚ)), ("2024-01-01", (3 : ℚ))])
    ∧ ([("2024-01-02", (5 : ℚ)), ("2024-01-01", (3 : ℚ))]
        ≠ ([] : List (String × ℚ)))
    ∧ ∃ st,
        drawGraph [Sensor.mk 1 none (some
            [MPoint.mk (some "2024-01-02") (some 5),
              MPoint.mk (some "2024-01-01") (some 3)])] = .rendered st
        ∧ st.current = ([("2024-01-02", (5 : ℚ)), ("2024-01-01", (3 : ℚ))].map
            Prod.snd).reverse.getLastD 0
        ∧ st.avg = ([("2024-01-02", (5 : ℚ)), ("2024-01-01", (3 : ℚ))].map
              Prod.snd).reverse.sum
            / ((([("2024-01-02", (5 : ℚ)), ("2024-01-01", (3 : ℚ))].map
              Prod.snd).reverse.length : ℚ))
        ∧ st.trend = calculateTrend ([("2024-01-02", (5 : ℚ)),
            ("2024-01-01", (3 : ℚ))].map Prod.snd).reverse
        ∧ (∃ i, ∃ hi : i < ([("2024-01-02", (5 : ℚ)),
              ("2024-01-01", (3 : ℚ))].map Prod.snd).reverse.length,
            st.minVal = ([("2024-01-02", (5 : ℚ)),
              ("2024-01-01", (3 : ℚ))].map Prod.snd).reverse.get ⟨i, hi⟩
            ∧ st.minDate = ([("2024-01-02", (5 : ℚ)),
              ("2024-01-01", (3 : ℚ))].map Prod.fst).reverse.getD i ""
            ∧ (∀ v ∈ ([("2024-01-02", (5 : ℚ)),
                ("2024-01-01", (3 : ℚ))].map Prod.snd).reverse, st.minVal ≤ v)
            ∧ ∀ k, ∀ hk : k < ([("2024-01-02", (5 : ℚ)),
                ("2024-01-01", (3 : ℚ))].map Prod.snd).reverse.length, k < i →
                st.minVal < ([("2024-01-02", (5 : ℚ)),
                  ("2024-01-01", (3 : ℚ))].map Prod.snd).reverse.get ⟨k, hk⟩)
        ∧ (∃ i, ∃ hi : i < ([("2024-01-02", (5 : ℚ)),
              ("2024-01-01", (3 : ℚ))].map Prod.snd).reverse.length,
            st.maxVal = ([("2024-01-02", (5 : ℚ)),
              ("2024-01-01", (3 : ℚ))].map Prod.snd).reverse.get ⟨i, hi⟩
            ∧ st.maxDate = ([("2024-01-02", (5 : ℚ)),
              ("2024-01-01", (3 : ℚ))].map Prod.fst).reverse.getD i ""
            ∧ (∀ v ∈ ([("2024-01-02", (5 : ℚ)),
                ("2024-01-01", (3 : ℚ))].map Prod.snd).reverse, v ≤ st.maxVal)
            ∧ ∀ k, ∀ hk : k < ([("2024-01-02", (5 : ℚ)),
                ("2024-01-01", (3 : ℚ))].map Prod.snd).reverse.length, k < i →
                ([("2024-01-02", (5 : ℚ)),
                  ("2024-01-01", (3 : ℚ))].map Prod.snd).reverse.get ⟨k, hk⟩
                  < st.maxVal) :=
  ⟨by decide, by decide, drawGraph_stats_spec
    [Sensor.mk 1 none (some
      [MPoint.mk (some "2024-01-02") (some 5),
        MPoint.mk (some "2024-01-01") (some 3)])]
    [("2024-01-02", (5 : ℚ)), ("2024-01-01", (3 : ℚ))]
    (by decide) (by decide)⟩

/-- Claim C8, counterexample to the claim as stated: A descriptor whose
only point carries a null value yields an empty flattened sequence; the
drawing routine then silently returns (`if (values.empty()) return;`),
rendering nothing — it does not produce any `NoData` error for the
caller. -/
theorem drawGraph_noData_counterexample :
    extractPoints [Sensor.mk 1 none
        (some [MPoint.mk (some "2024-01-01") none])] = some []
    ∧ drawGraph [Sensor.mk 1 none
        (some [MPoint.mk (some "2024-01-01") none])] = .noRender
    ∧ drawGraph [Sensor.mk 1 none
        (some [MPoint.mk (some "2024-01-01") none])] ≠ .reportedNoData := by
  exact ⟨rfl, rfl, by decide⟩

/-- Claim C8, amended: Whenever the flattened, absent-value-filtered
sequence is empty, `DrawGraph` silently returns early and renders
nothing; and on NO input does it surface a `NoData` error to its caller
— the empty-data condition is swallowed, not reported. -/
theorem drawGraph_silent_on_empty (sensorData : List Sensor) :
    (∀ pts, extractPoints sensorData = some pts →
      (drawGraph sensorData = .noRender ↔ pts = []))
    ∧ drawGraph sensorData ≠ .reportedNoData := by
  constructor
  · intro pts hext
    constructor
    · intro hdr
      cases hv : (pts.map Prod.snd).reverse with
      | nil => simpa using hv
      | cons v0 vrest => simp [drawGraph, hext, hv] at hdr
    · intro hpts
      subst hpts
      simp [drawGraph, hext]
  · intro hdr
    cases hext : extractPoints sensorData with
    | none => simp [drawGraph, hext] at hdr
    | some pts =>
      cases hv : (pts.map Prod.snd).reverse with
      | nil => simp [drawGraph, hext, hv] at hdr
      | cons v0 vrest => simp [drawGraph, hext, hv] at hdr

/-- Witness for the amended C8 at a descriptor with an empty series. -/
theorem drawGraph_silent_on_empty_witness :
    extractPoints [Sensor.mk 2 none (some [])] = some []
    ∧ (drawGraph [Sensor.mk 2 none (some [])] = .noRender
        ↔ ([] : List (String × ℚ)) = [])
    ∧ drawGraph [Sensor.mk 2 none (some [])] ≠ .reportedNoData :=
  ⟨rfl, (drawGraph_silent_on_empty [Sensor.mk 2 none (some [])]).1 [] rfl,
    (drawGraph_silent_on_empty [Sensor.mk 2 none (some [])]).2⟩
